import Mathlib

set_option maxRecDepth 100000

/-!
Verification development for the BlackJack repository.

The definitions below are a shallow embedding of the C++ sources:
`include/Card.h`, `include/constants.h`, `include/Hand.h`, `src/Hand.cpp`,
`include/Shoe.h`, `src/Shoe.cpp`, `include/GameStats.h`, `src/GameStats.cpp`
and `src/GameFunctions.cpp`.  Machine `int` values are modelled as `Nat`
(all quantities involved are non-negative and far from overflow), C++
`std::string` as `String`, fixed-size C arrays as `List`s whose length is
maintained as an invariant, and the process-wide `rand()` stream as an
explicit function `Nat → Nat` supplying one number per call site.
-/

/-- Card.h: a playing card is a pair of strings (rank, suit). -/
structure Card where
  rank : String
  suit : String
deriving DecidableEq

/-- Value of a default-constructed C++ `Card`: both strings empty. -/
def emptyCard : Card := ⟨"", ""⟩

/-- constants.h values used by the core. -/
def MAX_PLAYER_COUNT : Nat := 3
/-- constants.h global MAX_HAND_SIZE (shadowed inside `Hand` by the member). -/
def CONSTANTS_MAX_HAND_SIZE : Nat := 12
def SUIT_COUNT : Nat := 4
def RANK_COUNT : Nat := 13
def DECK_SIZE : Nat := 52
def NUMBER_OF_DECKS : Nat := 6
def STARTING_CARDS : Nat := 2
def RESHUFFLE_THRESHOLD : Nat := 75
def BLACKJACK : Nat := 21
def FACE_CARD_VALUE : Nat := 10
def ACE_HIGH : Nat := 11
def ACE_LOW : Nat := 1
def DEALER_STAND : Nat := 17

/-- Hand.h: `static const int MAX_HAND_SIZE = 11` — the struct member that
shadows the global constant 12 from constants.h inside `Hand`'s methods. -/
def Hand.MAX_HAND_SIZE : Nat := 11

/-- Hand.h: owner name, number of cards, and the fixed array
`Card card[MAX_HAND_SIZE]` of 11 slots (modelled as a list of length 11). -/
structure Hand where
  owner : String
  numCards : Nat
  card : List Card
deriving DecidableEq

/-- Hand.cpp constructor `Hand::Hand(const std::string&)`: owner set, zero
cards, and the member array default-initialized to 11 empty cards. -/
def Hand.init (ownerName : String) : Hand :=
  { owner := ownerName, numCards := 0, card := List.replicate Hand.MAX_HAND_SIZE emptyCard }

/-- Hand.cpp `Hand::addCardToHand`: append the card at index `numCards` when
`numCards < MAX_HAND_SIZE - 1` (the member 11, so the guard is `numCards < 10`)
and the card has non-empty rank and suit; otherwise silently do nothing. -/
def Hand.addCardToHand (h : Hand) (c : Card) : Hand :=
  if h.numCards < Hand.MAX_HAND_SIZE - 1 ∧ c.rank ≠ "" ∧ c.suit ≠ "" then
    { h with card := h.card.set h.numCards c, numCards := h.numCards + 1 }
  else h

/-- Hand.cpp: the local `std::map<std::string,int> cardValues` of
`evaluateHandScore`; `operator[]` on a missing key default-inserts 0. -/
def cardValues (r : String) : Nat :=
  if r = "A" then ACE_HIGH
  else if r = "K" then FACE_CARD_VALUE
  else if r = "Q" then FACE_CARD_VALUE
  else if r = "J" then FACE_CARD_VALUE
  else if r = "T" then 10
  else if r = "9" then 9
  else if r = "8" then 8
  else if r = "7" then 7
  else if r = "6" then 6
  else if r = "5" then 5
  else if r = "4" then 4
  else if r = "3" then 3
  else if r = "2" then 2
  else 0

/-- Hand.cpp `Hand::adjustScoreForAces`: while the score exceeds 21 and an
ace counted high remains, subtract `ACE_HIGH - ACE_LOW = 10`. -/
def adjustScoreForAces (score : Nat) : Nat → Nat
  | 0 => score
  | aceCount + 1 =>
    if score > BLACKJACK then adjustScoreForAces (score - (ACE_HIGH - ACE_LOW)) aceCount
    else score

/-- Score of a list of card slots: the body of `Hand::evaluateHandScore`
applied to a given card array. -/
def scoreOn (cards : List Card) : Nat :=
  adjustScoreForAces ((cards.map (fun c => cardValues c.rank)).sum)
    ((cards.filter (fun c => c.rank == "A")).length)

/-- Hand.cpp `Hand::evaluateHandScore`: sums `cardValues` over the ENTIRE
11-slot member array (`for (const auto &singleCard : card)`), counting aces,
then calls `adjustScoreForAces`. -/
def Hand.evaluateHandScore (h : Hand) : Nat := scoreOn h.card

/-- GameFunctions.cpp `isBusted`: score strictly above 21. -/
def isBusted (hand : Hand) : Bool := decide (BLACKJACK < hand.evaluateHandScore)

/-- GameFunctions.cpp `isBlackjack`: exactly two cards scoring exactly 21. -/
def isBlackjack (hand : Hand) : Bool :=
  hand.numCards == 2 && hand.evaluateHandScore == BLACKJACK

/-- Hands reachable from a freshly constructed `Hand` by `addCardToHand`. -/
inductive Hand.Reachable : Hand → Prop
  | init (ownerName : String) : Hand.Reachable (Hand.init ownerName)
  | add {h : Hand} (c : Card) : Hand.Reachable h → Hand.Reachable (h.addCardToHand c)

/-- Ranks of the card model of the spec (and of every card a `Shoe` holds). -/
def validRank (r : String) : Prop :=
  r = "A" ∨ r = "K" ∨ r = "Q" ∨ r = "J" ∨ r = "T" ∨ r = "9" ∨ r = "8" ∨
  r = "7" ∨ r = "6" ∨ r = "5" ∨ r = "4" ∨ r = "3" ∨ r = "2"

instance (r : String) : Decidable (validRank r) := by
  unfold validRank; infer_instance

/-- Hands reachable by `addCardToHand` with cards whose ranks are among the
13 canonical ranks. -/
inductive Hand.ReachableValid : Hand → Prop
  | init (ownerName : String) : Hand.ReachableValid (Hand.init ownerName)
  | add {h : Hand} (c : Card) (hv : validRank c.rank) :
      Hand.ReachableValid h → Hand.ReachableValid (h.addCardToHand c)

/-- Per-rank value table as the spec words it: number cards at face value,
T/J/Q/K as 10, each Ace initially as 11.  This is the spec-side definition
used for the refinement comparison in claim C5. -/
def specRankValue (r : String) : Nat :=
  if r = "A" then 11
  else if r = "K" ∨ r = "Q" ∨ r = "J" ∨ r = "T" then 10
  else if r = "9" then 9
  else if r = "8" then 8
  else if r = "7" then 7
  else if r = "6" then 6
  else if r = "5" then 5
  else if r = "4" then 4
  else if r = "3" then 3
  else if r = "2" then 2
  else 0

/-- Ace adjustment as the spec words it: repeatedly subtract 10 for one Ace
still counted as 11 while the total exceeds 21 and such an Ace remains.
Spec-side definition for the refinement comparison in claim C5. -/
def specAdjust (total : Nat) : Nat → Nat
  | 0 => total
  | acesHigh + 1 =>
    if total > 21 then specAdjust (total - 10) acesHigh else total

/-- Reference score computation as the spec words it, over the cards actually
in the hand.  Spec-side definition for the refinement comparison in C5. -/
def specScore (cards : List Card) : Nat :=
  specAdjust ((cards.map (fun c => specRankValue c.rank)).sum)
    ((cards.filter (fun c => c.rank == "A")).length)

/-- GameStats.h: per-player counters stored in parallel vectors, plus the
dealer counters and the round total. -/
structure GameStats where
  playerWins : List Nat
  playerLosses : List Nat
  playerTies : List Nat
  playerBlackjacks : List Nat
  playerBlackjack : List Bool
  dealerBlackjack : Bool
  dealerWins : Nat
  dealerBlackjacks : Nat
  totalRounds : Nat
deriving DecidableEq

/-- GameStats.cpp constructor: vectors of `numPlayers` zero-initialized
entries; the scalar members use their in-class initializers. -/
def GameStats.init (numPlayers : Nat) : GameStats :=
  { playerWins := List.replicate numPlayers 0
    playerLosses := List.replicate numPlayers 0
    playerTies := List.replicate numPlayers 0
    playerBlackjacks := List.replicate numPlayers 0
    playerBlackjack := List.replicate numPlayers false
    dealerBlackjack := false
    dealerWins := 0
    dealerBlackjacks := 0
    totalRounds := 0 }

/-- Increment of `v[i]++` on a counter vector. -/
def incAt (l : List Nat) (i : Nat) : List Nat := l.set i (l.getD i 0 + 1)

/-- Default hand used to model `hands.back()` on the (never empty) hand
vector. -/
def defaultHand : Hand := Hand.init ("Unknown")

/-- GameFunctions.cpp `compareHands`: the if/else-if chain adjudicating one
player hand against the dealer hand.  Note that when the dealer busted and
the player did not, no branch fires and the statistics are left unchanged
(that case is handled by the dealer-busted loop in `determineWinner`). -/
def compareHands (playerHand dealerHand : Hand) (stats : GameStats) (playerIndex : Nat) :
    GameStats :=
  let playerScore := playerHand.evaluateHandScore
  let dealerScore := dealerHand.evaluateHandScore
  if isBusted playerHand then
    { stats with playerLosses := incAt stats.playerLosses playerIndex }
  else if isBlackjack playerHand && !(isBlackjack dealerHand) then
    { stats with playerWins := incAt stats.playerWins playerIndex,
                 playerBlackjacks := incAt stats.playerBlackjacks playerIndex }
  else if decide (dealerScore > playerScore) && !(isBusted dealerHand) then
    { stats with playerLosses := incAt stats.playerLosses playerIndex,
                 dealerWins := stats.dealerWins + 1 }
  else if decide (playerScore > dealerScore) then
    { stats with playerWins := incAt stats.playerWins playerIndex }
  else if playerScore == dealerScore then
    { stats with playerTies := incAt stats.playerTies playerIndex }
  else stats

/-- GameFunctions.cpp `checkBlackjack`, dealer-blackjack branch: the loop
over players that records each player's natural flag, credits a tie to a
player who also has a natural and a loss to every other player, and
accumulates whether any player has a natural. -/
def cbLoopDealerBJ : List Hand → Nat → GameStats → Bool → GameStats × Bool
  | [], _, stats, anyBJ => (stats, anyBJ)
  | p :: rest, i, stats, anyBJ =>
    let bj := isBlackjack p
    let stats1 := { stats with playerBlackjack := stats.playerBlackjack.set i bj }
    let stats2 :=
      if bj then { stats1 with playerTies := incAt stats1.playerTies i }
      else { stats1 with playerLosses := incAt stats1.playerLosses i }
    cbLoopDealerBJ rest (i + 1) stats2 (anyBJ || bj)

/-- GameFunctions.cpp `checkBlackjack`, no-dealer-blackjack branch: the loop
that only records each player's natural flag. -/
def cbLoopNoBJ : List Hand → Nat → GameStats → GameStats
  | [], _, stats => stats
  | p :: rest, i, stats =>
    cbLoopNoBJ rest (i + 1)
      { stats with playerBlackjack := stats.playerBlackjack.set i (isBlackjack p) }

/-- GameFunctions.cpp `checkBlackjack`: record the dealer natural flag; if the
dealer has a natural, settle every player immediately (tie for a player
natural, loss otherwise) and credit the dealer a win when no player has a
natural; otherwise just record the players' natural flags. -/
def checkBlackjack (hands : List Hand) (stats : GameStats) : GameStats :=
  let stats0 := { stats with dealerBlackjack := isBlackjack (hands.getLastD defaultHand) }
  if stats0.dealerBlackjack then
    let r := cbLoopDealerBJ hands.dropLast 0 stats0 false
    if !r.2 then { r.1 with dealerWins := r.1.dealerWins + 1 } else r.1
  else
    cbLoopNoBJ hands.dropLast 0 stats0

/-- GameFunctions.cpp `shouldEndRoundEarly`: true iff the dealer natural flag
is set and no player natural flag is set. -/
def shouldEndRoundEarly (stats : GameStats) : Bool :=
  if stats.dealerBlackjack then
    if stats.playerBlackjack.any (fun b => b) then false else true
  else false

/-- Hands offered a hit/stand decision by the turn loop of
`playRound` (GameFunctions.cpp lines 331-337): when the round does not end
early, every hand that is not the dealer's and is not a natural. -/
def playersOffered (hands : List Hand) (endRoundEarly : Bool) : List Hand :=
  if endRoundEarly then []
  else hands.filter (fun h => !(h.owner == "Dealer") && !(isBlackjack h))

/-- GameFunctions.cpp `determineWinner`, per-player settlement loop: a player
whose natural flag is set wins (with blackjack credit) unless the dealer also
has a natural, in which case it is a tie; all other players go through
`compareHands`. -/
def dwSettleLoop : List Hand → Hand → Nat → GameStats → GameStats
  | [], _, _, stats => stats
  | p :: rest, dealerHand, i, stats =>
    let stats1 :=
      if stats.playerBlackjack.getD i false then
        if !(isBlackjack dealerHand) then
          { stats with playerWins := incAt stats.playerWins i,
                       playerBlackjacks := incAt stats.playerBlackjacks i }
        else
          { stats with playerTies := incAt stats.playerTies i }
      else compareHands p dealerHand stats i
    dwSettleLoop rest dealerHand (i + 1) stats1

/-- GameFunctions.cpp `determineWinner`, dealer-busted loop: every player who
neither busted nor holds the natural flag is credited a win. -/
def dwBustLoop : List Hand → Nat → GameStats → GameStats
  | [], _, stats => stats
  | p :: rest, i, stats =>
    let stats1 :=
      if !(isBusted p) && !(stats.playerBlackjack.getD i false) then
        { stats with playerWins := incAt stats.playerWins i }
      else stats
    dwBustLoop rest (i + 1) stats1

/-- GameFunctions.cpp `determineWinner`: dealer-natural credits, per-player
settlement, the dealer-busted loop, and the final `totalRounds++`. -/
def determineWinner (hands : List Hand) (stats : GameStats) : GameStats :=
  let dealerHand := hands.getLastD defaultHand
  let dealerBusted := isBusted dealerHand
  let stats1 :=
    if isBlackjack dealerHand then
      let statsA := { stats with dealerBlackjacks := stats.dealerBlackjacks + 1 }
      let allPlayersNoBlackjack := !(statsA.playerBlackjack.any (fun b => b))
      if allPlayersNoBlackjack && !dealerBusted then
        { statsA with dealerWins := statsA.dealerWins + 1 }
      else statsA
    else stats
  let stats2 := dwSettleLoop hands.dropLast dealerHand 0 stats1
  let stats3 :=
    if dealerBusted then
      dwBustLoop hands.dropLast 0 { stats2 with dealerWins := stats2.dealerWins + 1 }
    else stats2
  { stats3 with totalRounds := stats3.totalRounds + 1 }

/-- Shoe.h: the 312-card array and the draw cursor `currentCard`. -/
structure Shoe where
  cards : List Card
  currentCard : Nat
deriving DecidableEq

/-- Total number of cards in the shoe: `DECK_SIZE * NUMBER_OF_DECKS = 312`. -/
def SHOE_SIZE : Nat := DECK_SIZE * NUMBER_OF_DECKS

/-- Model of one `std::swap(cards[i], cards[j])` on the card array. -/
def swapCards (l : List Card) (i j : Nat) : List Card :=
  (l.set i (l.getD j emptyCard)).set j (l.getD i emptyCard)

/-- Shoe.cpp `Shoe::shuffleDecks` loop: for `i = 0 .. 311`, swap slot `i`
with slot `rand() % 312`; `rnd` supplies the successive `rand()` values. -/
def shuffleAux (rnd : Nat → Nat) : List Card → Nat → Nat → List Card
  | cards, _, 0 => cards
  | cards, i, fuel + 1 => shuffleAux rnd (swapCards cards i (rnd i % SHOE_SIZE)) (i + 1) fuel

/-- Shoe.cpp `Shoe::shuffleDecks`: permute the card array in place.  The
function does not touch `currentCard`. -/
def Shoe.shuffleDecks (rnd : Nat → Nat) (s : Shoe) : Shoe :=
  { s with cards := shuffleAux rnd s.cards 0 SHOE_SIZE }

/-- Result of `Shoe::drawCardFromShoe`: the returned card, the updated shoe,
and whether the defensive `"ERROR: No more cards to deal"` branch ran. -/
structure DrawResult where
  card : Card
  shoe : Shoe
  exhaustedError : Bool
deriving DecidableEq

/-- Shoe.cpp `Shoe::drawCardFromShoe`: at or beyond the reshuffle point
(`currentCard >= 312 - 75`) reshuffle, reset the cursor and return the first
card; otherwise if `currentCard < 312` return the card at the cursor and
advance it; the final branch (no cards left) reshuffles defensively and
reports the error. -/
def Shoe.drawCardFromShoe (s : Shoe) (rnd : Nat → Nat) : DrawResult :=
  if SHOE_SIZE - RESHUFFLE_THRESHOLD ≤ s.currentCard then
    let s1 := { s.shuffleDecks rnd with currentCard := 0 }
    { card := s1.cards.getD s1.currentCard emptyCard,
      shoe := { s1 with currentCard := s1.currentCard + 1 },
      exhaustedError := false }
  else if s.currentCard < SHOE_SIZE then
    { card := s.cards.getD s.currentCard emptyCard,
      shoe := { s with currentCard := s.currentCard + 1 },
      exhaustedError := false }
  else
    let s1 := { s.shuffleDecks rnd with currentCard := 0 }
    { card := s1.cards.getD s1.currentCard emptyCard,
      shoe := { s1 with currentCard := s1.currentCard + 1 },
      exhaustedError := true }

/-- GameFunctions.cpp `playRound` dealer turn (lines 339-342): while the
dealer hand scores below `DEALER_STAND = 17`, draw a card and add it to the
dealer hand.  `fuel` bounds the number of iterations considered; `none`
means the loop is still running after `fuel` iterations. -/
def dealerLoop (rnd : Nat → Nat) : Nat → Hand → Shoe → Option (Hand × Shoe)
  | 0, _, _ => none
  | fuel + 1, dealerHand, deck =>
    if dealerHand.evaluateHandScore < DEALER_STAND then
      let r := deck.drawCardFromShoe rnd
      dealerLoop rnd fuel (dealerHand.addCardToHand r.card) r.shoe
    else some (dealerHand, deck)

/-- GameFunctions.cpp `collectCards`: reset every hand's card count to 0,
reset the shoe cursor to 0 and reshuffle the shoe. -/
def collectCards (hands : List Hand) (deck : Shoe) (rnd : Nat → Nat) :
    List Hand × Shoe :=
  (hands.map (fun h => { h with numCards := 0 }),
   Shoe.shuffleDecks rnd { deck with currentCard := 0 })

/-- Constant stream standing in for the `rand()` sequence in concrete runs. -/
def rnd0 : Nat → Nat := fun _ => 0

/-- Player hand A♠ Q♠ (a natural), dealt by two `addCardToHand` calls. -/
def pAQ : Hand :=
  ((Hand.init ("Player 1")).addCardToHand ⟨"A", "♠"⟩).addCardToHand ⟨"Q", "♠"⟩

/-- Dealer hand A♥ K♥ (a natural). -/
def dAK : Hand :=
  ((Hand.init ("Dealer")).addCardToHand ⟨"A", "♥"⟩).addCardToHand ⟨"K", "♥"⟩

/-- Round of one player where both the player and the dealer hold naturals. -/
def handsC1 : List Hand := [pAQ, dAK]

/-- Player hand A♠ K♠ (a natural). -/
def p1AK : Hand :=
  ((Hand.init ("Player 1")).addCardToHand ⟨"A", "♠"⟩).addCardToHand ⟨"K", "♠"⟩

/-- Player hand 5♥ 7♦ (no natural). -/
def p2_57 : Hand :=
  ((Hand.init ("Player 2")).addCardToHand ⟨"5", "♥"⟩).addCardToHand ⟨"7", "♦"⟩

/-- Dealer hand A♥ Q♥ (a natural). -/
def dAQ : Hand :=
  ((Hand.init ("Dealer")).addCardToHand ⟨"A", "♥"⟩).addCardToHand ⟨"Q", "♥"⟩

/-- Round of two players: player 1 and the dealer hold naturals, player 2
does not. -/
def handsC2 : List Hand := [p1AK, p2_57, dAQ]

/-- Hand holding ten valid cards, built by ten `addCardToHand` calls. -/
def hand10p : Hand :=
  ((((((((((Hand.init ("Player 1")).addCardToHand
    ⟨"2", "♣"⟩).addCardToHand
    ⟨"2", "♦"⟩).addCardToHand
    ⟨"2", "♥"⟩).addCardToHand
    ⟨"2", "♠"⟩).addCardToHand
    ⟨"3", "♣"⟩).addCardToHand
    ⟨"3", "♦"⟩).addCardToHand
    ⟨"3", "♥"⟩).addCardToHand
    ⟨"A", "♣"⟩).addCardToHand
    ⟨"A", "♦"⟩).addCardToHand
    ⟨"A", "♥"⟩

/-- Dealer hand 2♣ 2♦ as dealt at the start of the dealer's turn. -/
def dealerStart : Hand :=
  ((Hand.init ("Dealer")).addCardToHand ⟨"2", "♣"⟩).addCardToHand ⟨"2", "♦"⟩

/-- Card order of a shoe whose next eight cards are 2♥ 2♠ 2♣ 2♦ A♠ A♥ A♦ A♣
(all present in a six-deck shoe), padded to the full 312 cards. -/
def shoe0Cards : List Card :=
  [⟨"2", "♥"⟩, ⟨"2", "♠"⟩, ⟨"2", "♣"⟩, ⟨"2", "♦"⟩,
   ⟨"A", "♠"⟩, ⟨"A", "♥"⟩, ⟨"A", "♦"⟩, ⟨"A", "♣"⟩] ++
  List.replicate 304 ⟨"K", "♠"⟩

/-- Shoe state at the start of the dealer's turn for the C6 failing input. -/
def shoe0 : Shoe := { cards := shoe0Cards, currentCard := 0 }

/-- Dealer hand after the dealer-turn loop has drawn the eight cards above:
2♣ 2♦ 2♥ 2♠ 2♣ 2♦ A♠ A♥ A♦ A♣ — ten cards scoring 16. -/
def hand10 : Hand :=
  (((((((dealerStart.addCardToHand
    ⟨"2", "♥"⟩).addCardToHand
    ⟨"2", "♠"⟩).addCardToHand
    ⟨"2", "♣"⟩).addCardToHand
    ⟨"2", "♦"⟩).addCardToHand
    ⟨"A", "♠"⟩).addCardToHand
    ⟨"A", "♥"⟩).addCardToHand
    ⟨"A", "♦"⟩).addCardToHand
    ⟨"A", "♣"⟩

/-- Shoe state after the eight draws of the C6 trace. -/
def shoe8 : Shoe := { cards := shoe0Cards, currentCard := 8 }

/-- Full shoe (312 equal cards suffice for the frame properties) with the
cursor at 42, mid-round. -/
def exShoe42 : Shoe := { cards := List.replicate SHOE_SIZE ⟨"A", "♠"⟩, currentCard := 42 }

/-- Full shoe with the cursor at 5. -/
def exShoe5 : Shoe := { cards := List.replicate SHOE_SIZE ⟨"A", "♠"⟩, currentCard := 5 }

/-- Full shoe with the cursor at 0. -/
def exShoe0 : Shoe := { cards := List.replicate SHOE_SIZE ⟨"A", "♠"⟩, currentCard := 0 }

/-- Player hand A♠ A♥, scoring 12 (one ace high, one low). -/
def hAA : Hand :=
  ((Hand.init ("Player 1")).addCardToHand ⟨"A", "♠"⟩).addCardToHand ⟨"A", "♥"⟩

/-- Taking one slot past a just-written index splits off the written value. -/
theorem take_succ_set {α : Type _} (l : List α) (i : Nat) (b : α) (h : i < l.length) :
    (l.set i b).take (i + 1) = l.take i ++ [b] := by
  have h2 : i < (l.set i b).length := by simpa using h
  rw [← List.take_concat_get (l.set i b) i h2, List.concat_eq_append]
  congr 1
  · rw [List.set_take, List.set_eq_of_length_le]
    rw [List.length_take]
    omega
  · simp

/-- Reading back the slot just written. -/
theorem getD_set_self {α : Type _} (l : List α) (i : Nat) (b d : α) (h : i < l.length) :
    (l.set i b).getD i d = b := by
  simp [List.getD_eq_getElem?_getD, List.getElem?_set_self', List.getElem?_eq_getElem h]

/-- Writing one slot leaves the others unchanged. -/
theorem getD_set_ne {α : Type _} (l : List α) (i j : Nat) (b d : α) (h : i ≠ j) :
    (l.set i b).getD j d = l.getD j d := by
  simp [List.getD_eq_getElem?_getD, List.getElem?_set_ne h]

/-- C4 (code bug): `addCardToHand` silently drops a well-formed card from a
hand holding only 10 cards — fewer than the documented 11-card capacity
(`Hand::MAX_HAND_SIZE = 11`), because the guard `numCards < MAX_HAND_SIZE - 1`
is off by one.  The claim says the card is appended whenever the hand holds
fewer than 11 cards. -/
theorem C4_addCard_capacity_off_by_one :
    hand10p.numCards = 10 ∧ hand10p.numCards < 11 ∧
    (⟨"3", "♦"⟩ : Card).rank ≠ "" ∧ (⟨"3", "♦"⟩ : Card).suit ≠ "" ∧
    hand10p.addCardToHand ⟨"3", "♦"⟩ = hand10p ∧
    Hand.MAX_HAND_SIZE = 11 := by decide

/-- C8 (counterexample): `shuffleDecks` does not reset the draw cursor — on a
shoe with cursor 5 the cursor is still 5 (not 0) after shuffling. -/
theorem C8_counterexample_cursor_not_reset :
    exShoe5.currentCard = 5 ∧ ¬((Shoe.shuffleDecks rnd0 exShoe5).currentCard = 0) :=
  ⟨rfl, by decide⟩

/-- C8 (amended): `shuffleDecks` leaves the draw cursor unchanged, for every
shoe state and random sequence; the cursor is reset to 0 only by its callers
(the constructor, the reshuffle branch of `drawCardFromShoe`, and
`collectCards`). -/
theorem C8_amended_shuffle_preserves_cursor (rnd : Nat → Nat) (s : Shoe) :
    (Shoe.shuffleDecks rnd s).currentCard = s.currentCard := by
  simp [Shoe.shuffleDecks]

/-- C3 (counterexample): at round end `collectCards` resets the shoe cursor
to 0 — on a shoe with cursor 42 the cursor does not persist. -/
theorem C3_counterexample_cursor_reset :
    exShoe42.currentCard = 42 ∧
    (collectCards [] exShoe42 rnd0).2.currentCard = 0 ∧
    (collectCards [] exShoe42 rnd0).2.currentCard ≠ exShoe42.currentCard :=
  ⟨rfl, rfl, by decide⟩

/-- C1 (code bug): in a round where both the single player and the dealer
hold naturals, the player's tie counter is incremented by `checkBlackjack`
(0 → 1) and again by `determineWinner` (1 → 2), even though the hands are
untouched in between (the player is skipped by the turn loop and the dealer
draws nothing at 21); the claim says exactly one increment of exactly 1. -/
theorem C1_tie_counted_twice :
    isBlackjack dAK = true ∧ isBlackjack pAQ = true ∧
    (checkBlackjack handsC1 (GameStats.init 1)).playerTies = [1] ∧
    playersOffered handsC1 (shouldEndRoundEarly (checkBlackjack handsC1 (GameStats.init 1))) = [] ∧
    dealerLoop rnd0 1 dAK shoe0 = some (dAK, shoe0) ∧
    (determineWinner handsC1 (checkBlackjack handsC1 (GameStats.init 1))).playerTies = [2] ∧
    (determineWinner handsC1 (checkBlackjack handsC1 (GameStats.init 1))).playerWins = [0] ∧
    (determineWinner handsC1 (checkBlackjack handsC1 (GameStats.init 1))).playerLosses = [0] := by
  decide

/-- C2 (counterexample): with two players where player 1 and the dealer hold
naturals, the round is not settled early and player 2 is still offered a
hit/stand decision, although the dealer holds a natural. -/
theorem C2_counterexample_player_still_offered :
    isBlackjack (handsC2.getLastD defaultHand) = true ∧
    shouldEndRoundEarly (checkBlackjack handsC2 (GameStats.init 2)) = false ∧
    playersOffered handsC2 (shouldEndRoundEarly (checkBlackjack handsC2 (GameStats.init 2))) =
      [p2_57] := by
  decide

/-- Adjudicating one hand never touches the round total. -/
theorem compareHands_totalRounds (p d : Hand) (stats : GameStats) (i : Nat) :
    (compareHands p d stats i).totalRounds = stats.totalRounds := by
  simp only [compareHands]
  repeat' split
  all_goals rfl

/-- The per-player settlement loop never touches the round total. -/
theorem dwSettleLoop_totalRounds (ps : List Hand) (d : Hand) (i : Nat) (stats : GameStats) :
    (dwSettleLoop ps d i stats).totalRounds = stats.totalRounds := by
  induction ps generalizing i stats with
  | nil => rfl
  | cons p rest ih =>
    simp only [dwSettleLoop]
    rw [ih]
    split
    · split <;> rfl
    · exact compareHands_totalRounds p d stats i

/-- The dealer-busted loop never touches the round total. -/
theorem dwBustLoop_totalRounds (ps : List Hand) (i : Nat) (stats : GameStats) :
    (dwBustLoop ps i stats).totalRounds = stats.totalRounds := by
  induction ps generalizing i stats with
  | nil => rfl
  | cons p rest ih =>
    simp only [dwBustLoop]
    rw [ih]
    split <;> rfl

/-- C3 (amended): at the end of every round, `determineWinner` increments
`totalRounds` by exactly 1, and `collectCards` resets every hand's card count
to 0 and resets the shoe's draw cursor to 0 (reshuffling the shoe), for all
hands, statistics, shoe states and random sequences. -/
theorem C3_amended_round_end (hands : List Hand) (stats : GameStats) (deck : Shoe)
    (rnd : Nat → Nat) :
    (determineWinner hands stats).totalRounds = stats.totalRounds + 1 ∧
    ((collectCards hands deck rnd).1.all (fun h => h.numCards == 0)) = true ∧
    (collectCards hands deck rnd).2.currentCard = 0 := by
  refine ⟨?_, ?_, by simp [collectCards, Shoe.shuffleDecks]⟩
  · simp only [determineWinner]
    split
    · rw [dwBustLoop_totalRounds]
      rw [show ∀ st : GameStats, ({ st with dealerWins := st.dealerWins + 1} : GameStats).totalRounds
           = st.totalRounds from fun _ => rfl]
      rw [dwSettleLoop_totalRounds]
      split
      · split <;> rfl
      · rfl
    · rw [dwSettleLoop_totalRounds]
      split
      · split <;> rfl
      · rfl
  · simp [collectCards, List.all_map, Function.comp]

/-- The dealer-blackjack settlement loop never touches the dealer flag. -/
theorem cbLoopDealerBJ_dealerFlag (ps : List Hand) (i : Nat) (stats : GameStats) (b : Bool) :
    ((cbLoopDealerBJ ps i stats b).1).dealerBlackjack = stats.dealerBlackjack := by
  induction ps generalizing i stats b with
  | nil => rfl
  | cons p rest ih =>
    simp only [cbLoopDealerBJ]
    rw [ih]
    split <;> rfl

/-- The flag-only loop never touches the dealer flag. -/
theorem cbLoopNoBJ_dealerFlag (ps : List Hand) (i : Nat) (stats : GameStats) :
    (cbLoopNoBJ ps i stats).dealerBlackjack = stats.dealerBlackjack := by
  induction ps generalizing i stats with
  | nil => rfl
  | cons p rest ih =>
    simp only [cbLoopNoBJ]
    rw [ih]

/-- After the dealer-blackjack settlement loop, the natural flags of the
processed players hold exactly `isBlackjack` of their hands. -/
theorem cbLoopDealerBJ_flags (ps : List Hand) (i : Nat) (stats : GameStats) (b : Bool)
    (hlen : stats.playerBlackjack.length = i + ps.length) :
    ((cbLoopDealerBJ ps i stats b).1).playerBlackjack =
      stats.playerBlackjack.take i ++ ps.map isBlackjack := by
  induction ps generalizing i stats b with
  | nil =>
    simp only [List.length_nil, Nat.add_zero] at hlen
    simp [cbLoopDealerBJ, List.take_of_length_le (le_of_eq hlen)]
  | cons p rest ih =>
    simp only [cbLoopDealerBJ]
    have hi : i < stats.playerBlackjack.length := by
      rw [hlen]; simp [Nat.lt_add_of_pos_right]
    have hrec : ∀ st : GameStats,
        st.playerBlackjack = stats.playerBlackjack.set i (isBlackjack p) →
        ((cbLoopDealerBJ rest (i + 1) st (b || isBlackjack p)).1).playerBlackjack =
          stats.playerBlackjack.take i ++ (p :: rest).map isBlackjack := by
      intro st hst
      rw [ih (i + 1) st (b || isBlackjack p) (by rw [hst]; simp at hlen ⊢; omega), hst,
          take_succ_set _ _ _ hi]
      simp
    split
    · exact hrec _ rfl
    · exact hrec _ rfl

/-- After the flag-only loop, the natural flags of the processed players hold
exactly `isBlackjack` of their hands. -/
theorem cbLoopNoBJ_flags (ps : List Hand) (i : Nat) (stats : GameStats)
    (hlen : stats.playerBlackjack.length = i + ps.length) :
    (cbLoopNoBJ ps i stats).playerBlackjack =
      stats.playerBlackjack.take i ++ ps.map isBlackjack := by
  induction ps generalizing i stats with
  | nil =>
    simp only [List.length_nil, Nat.add_zero] at hlen
    simp [cbLoopNoBJ, List.take_of_length_le (le_of_eq hlen)]
  | cons p rest ih =>
    simp only [cbLoopNoBJ]
    have hi : i < stats.playerBlackjack.length := by
      rw [hlen]; simp [Nat.lt_add_of_pos_right]
    rw [ih (i + 1) _ (by simp at hlen ⊢; omega), take_succ_set _ _ _ hi]
    simp

/-- Mapping a Boolean test and scanning for `true` is one `any` pass. -/
theorem any_map_self {α : Type _} (f : α → Bool) (l : List α) :
    (l.map f).any (fun b => b) = l.any f := by
  induction l with
  | nil => rfl
  | cons a t ih => simp [ih]

/-- Closed form of `shouldEndRoundEarly`. -/
theorem shouldEndRoundEarly_eq (st : GameStats) :
    shouldEndRoundEarly st =
      (st.dealerBlackjack && !(st.playerBlackjack.any (fun b => b))) := by
  unfold shouldEndRoundEarly
  cases hd : st.dealerBlackjack <;>
    cases ha : st.playerBlackjack.any (fun b => b) <;> simp [hd, ha]

/-- C2 (amended): for every round state (with the flag vector sized to the
player count), the round is settled early iff the dealer holds a natural and
no player holds a natural; and whenever the dealer holds a natural the
dealer-turn loop returns immediately without drawing (21 is not below the
stand threshold 17). -/
theorem C2_amended_early_settlement (hands : List Hand) (stats : GameStats) (deck : Shoe)
    (rnd : Nat → Nat) (fuel : Nat)
    (hlen : stats.playerBlackjack.length = hands.dropLast.length) :
    shouldEndRoundEarly (checkBlackjack hands stats) =
      (isBlackjack (hands.getLastD defaultHand) &&
        !(hands.dropLast.any (fun p => isBlackjack p))) ∧
    (isBlackjack (hands.getLastD defaultHand) = true →
      dealerLoop rnd (fuel + 1) (hands.getLastD defaultHand) deck =
        some (hands.getLastD defaultHand, deck)) := by
  constructor
  · cases hb : isBlackjack (hands.getLastD defaultHand) with
    | false =>
      simp only [checkBlackjack, hb]
      rw [if_neg (by simp), shouldEndRoundEarly_eq, cbLoopNoBJ_dealerFlag]
      simp
    | true =>
      have hflags := cbLoopDealerBJ_flags hands.dropLast 0
        ({ stats with dealerBlackjack := true }) false (by simpa using hlen)
      have hdf := cbLoopDealerBJ_dealerFlag hands.dropLast 0
        ({ stats with dealerBlackjack := true }) false
      simp only [checkBlackjack, hb]
      rw [if_pos (by simp), shouldEndRoundEarly_eq]
      split <;> simp_all <;> rw [← List.map_dropLast, any_map_self]
  · intro hb
    have hsc : (hands.getLastD defaultHand).evaluateHandScore = 21 := by
      have hb2 := hb
      simp only [isBlackjack, Bool.and_eq_true, beq_iff_eq] at hb2
      exact hb2.2
    simp only [dealerLoop]
    rw [if_neg (by rw [hsc]; decide)]

/-- C2 (amended, witness): the amended statement evaluated on the concrete
two-player round `handsC2`. -/
theorem C2_amended_early_settlement_witness :
    (GameStats.init 2).playerBlackjack.length = handsC2.dropLast.length ∧
    (shouldEndRoundEarly (checkBlackjack handsC2 (GameStats.init 2)) =
      (isBlackjack (handsC2.getLastD defaultHand) &&
        !(handsC2.dropLast.any (fun p => isBlackjack p))) ∧
    (isBlackjack (handsC2.getLastD defaultHand) = true →
      dealerLoop rnd0 (0 + 1) (handsC2.getLastD defaultHand) exShoe0 =
        some (handsC2.getLastD defaultHand, exShoe0))) :=
  ⟨by decide, C2_amended_early_settlement handsC2 (GameStats.init 2) exShoe0 rnd0 0 (by decide)⟩

/-- Writing a slot exchanges the old entry for the new one, as multisets. -/
theorem set_cons_multiset {α : Type _} (t : List α) (m : Nat) (a d : α) (h : m < t.length) :
    (t.getD m d) ::ₘ (↑(t.set m a) : Multiset α) = a ::ₘ (↑t : Multiset α) := by
  induction t generalizing m with
  | nil => simp at h
  | cons b u ih =>
    cases m with
    | zero =>
      simp only [List.getD_cons_zero, List.set_cons_zero, ← Multiset.cons_coe]
      exact Multiset.cons_swap b a (↑u)
    | succ k =>
      have hk : k < u.length := by simpa using h
      simp only [List.getD_cons_succ, List.set_cons_succ, ← Multiset.cons_coe]
      rw [Multiset.cons_swap, ih k hk, Multiset.cons_swap]

/-- One `std::swap` of two in-bounds slots preserves the multiset of cards. -/
theorem swapCards_multiset (l : List Card) (i j : Nat) (hi : i < l.length)
    (hj : j < l.length) :
    (↑(swapCards l i j) : Multiset Card) = ↑l := by
  unfold swapCards
  have hj2 : j < (l.set i (l.getD j emptyCard)).length := by simpa using hj
  have key := set_cons_multiset (l.set i (l.getD j emptyCard)) j (l.getD i emptyCard)
    emptyCard hj2
  have hgd : (l.set i (l.getD j emptyCard)).getD j emptyCard = l.getD j emptyCard := by
    by_cases hij : i = j
    · subst hij; exact getD_set_self l i _ emptyCard hi
    · exact getD_set_ne l i j _ emptyCard hij
  rw [hgd] at key
  have key2 := set_cons_multiset l i (l.getD j emptyCard) emptyCard hi
  rw [key2] at key
  exact (Multiset.cons_inj_right _).mp key

/-- Swapping preserves the array length. -/
theorem swapCards_length (l : List Card) (i j : Nat) :
    (swapCards l i j).length = l.length := by
  simp [swapCards]

/-- The shuffle loop preserves the array length. -/
theorem shuffleAux_length (rnd : Nat → Nat) (cards : List Card) (i fuel : Nat) :
    (shuffleAux rnd cards i fuel).length = cards.length := by
  induction fuel generalizing cards i with
  | zero => rfl
  | succ n ih =>
    simp only [shuffleAux]
    rw [ih, swapCards_length]

/-- The shuffle loop preserves the multiset of cards while its index stays in
bounds. -/
theorem shuffleAux_multiset (rnd : Nat → Nat) (cards : List Card) (i fuel : Nat)
    (hlen : cards.length = SHOE_SIZE) (hif : i + fuel ≤ SHOE_SIZE) :
    (↑(shuffleAux rnd cards i fuel) : Multiset Card) = ↑cards := by
  induction fuel generalizing cards i with
  | zero => rfl
  | succ n ih =>
    simp only [shuffleAux]
    have hsz : 0 < SHOE_SIZE := by decide
    have hi : i < cards.length := by omega
    have hj : rnd i % SHOE_SIZE < cards.length := by
      rw [hlen]; exact Nat.mod_lt _ hsz
    rw [ih _ (i + 1) (by rw [swapCards_length]; exact hlen) (by omega),
        swapCards_multiset cards i _ hi hj]

/-- C9: `shuffleDecks` permutes the 312-card array — for every shoe state and
every sequence of random swap indices, the multiset of cards after the
shuffle equals the multiset before it. -/
theorem C9_shuffle_is_permutation (s : Shoe) (rnd : Nat → Nat)
    (hlen : s.cards.length = SHOE_SIZE) :
    (↑((Shoe.shuffleDecks rnd s).cards) : Multiset Card) = ↑s.cards := by
  simp only [Shoe.shuffleDecks]
  exact shuffleAux_multiset rnd s.cards 0 SHOE_SIZE hlen (by omega)

/-- C9 (witness): the permutation property evaluated on a concrete full shoe
and the constant random sequence. -/
theorem C9_shuffle_is_permutation_witness :
    exShoe0.cards.length = SHOE_SIZE ∧
    (↑((Shoe.shuffleDecks rnd0 exShoe0).cards) : Multiset Card) = ↑exShoe0.cards :=
  ⟨by simp [exShoe0], C9_shuffle_is_permutation exShoe0 rnd0 (by simp [exShoe0])⟩

/-- C7: for every shoe state with cursor in [0, 312] and a full 312-card
array, `drawCardFromShoe` never takes the exhaustion branch; it reshuffles
and resets the cursor exactly when the cursor is at or beyond
`312 - 75 = 237`, returns the card read at an in-bounds index, and leaves
the cursor in [1, 237]. -/
theorem C7_draw_reshuffle_safe (s : Shoe) (rnd : Nat → Nat)
    (hcur : s.currentCard ≤ SHOE_SIZE) (hlen : s.cards.length = SHOE_SIZE) :
    (s.drawCardFromShoe rnd).exhaustedError = false ∧
    1 ≤ (s.drawCardFromShoe rnd).shoe.currentCard ∧
    (s.drawCardFromShoe rnd).shoe.currentCard ≤ SHOE_SIZE - RESHUFFLE_THRESHOLD ∧
    (SHOE_SIZE - RESHUFFLE_THRESHOLD ≤ s.currentCard →
      (s.drawCardFromShoe rnd).card = (s.shuffleDecks rnd).cards.getD 0 emptyCard ∧
      (s.drawCardFromShoe rnd).shoe.currentCard = 1 ∧
      0 < (s.shuffleDecks rnd).cards.length) ∧
    (s.currentCard < SHOE_SIZE - RESHUFFLE_THRESHOLD →
      (s.drawCardFromShoe rnd).card = s.cards.getD s.currentCard emptyCard ∧
      (s.drawCardFromShoe rnd).shoe.currentCard = s.currentCard + 1 ∧
      s.currentCard < s.cards.length) := by
  have hss : SHOE_SIZE = 312 := rfl
  have hrt : RESHUFFLE_THRESHOLD = 75 := rfl
  by_cases h1 : SHOE_SIZE - RESHUFFLE_THRESHOLD ≤ s.currentCard
  · have he : (s.drawCardFromShoe rnd).exhaustedError = false := by
      unfold Shoe.drawCardFromShoe; rw [if_pos h1]
    have hc : (s.drawCardFromShoe rnd).shoe.currentCard = 1 := by
      unfold Shoe.drawCardFromShoe; rw [if_pos h1]
    have hcard : (s.drawCardFromShoe rnd).card = (s.shuffleDecks rnd).cards.getD 0 emptyCard := by
      unfold Shoe.drawCardFromShoe; rw [if_pos h1]
    have hlen2 : (s.shuffleDecks rnd).cards.length = s.cards.length := by
      simp only [Shoe.shuffleDecks]
      exact shuffleAux_length rnd s.cards 0 SHOE_SIZE
    exact ⟨he, by omega, by omega, fun _ => ⟨hcard, hc, by omega⟩,
      fun hcon => absurd h1 (by omega)⟩
  · have h2 : s.currentCard < SHOE_SIZE := by omega
    have he : (s.drawCardFromShoe rnd).exhaustedError = false := by
      unfold Shoe.drawCardFromShoe; rw [if_neg h1, if_pos h2]
    have hc : (s.drawCardFromShoe rnd).shoe.currentCard = s.currentCard + 1 := by
      unfold Shoe.drawCardFromShoe; rw [if_neg h1, if_pos h2]
    have hcard : (s.drawCardFromShoe rnd).card = s.cards.getD s.currentCard emptyCard := by
      unfold Shoe.drawCardFromShoe; rw [if_neg h1, if_pos h2]
    exact ⟨he, by omega, by omega, fun hcon => absurd hcon (by omega),
      fun _ => ⟨hcard, hc, by omega⟩⟩

/-- C7 (witness): the draw-safety property evaluated on a concrete full shoe
with cursor 0. -/
theorem C7_draw_reshuffle_safe_witness :
    exShoe0.currentCard ≤ SHOE_SIZE ∧ exShoe0.cards.length = SHOE_SIZE ∧
    ((exShoe0.drawCardFromShoe rnd0).exhaustedError = false ∧
    1 ≤ (exShoe0.drawCardFromShoe rnd0).shoe.currentCard ∧
    (exShoe0.drawCardFromShoe rnd0).shoe.currentCard ≤ SHOE_SIZE - RESHUFFLE_THRESHOLD ∧
    (SHOE_SIZE - RESHUFFLE_THRESHOLD ≤ exShoe0.currentCard →
      (exShoe0.drawCardFromShoe rnd0).card = (exShoe0.shuffleDecks rnd0).cards.getD 0 emptyCard ∧
      (exShoe0.drawCardFromShoe rnd0).shoe.currentCard = 1 ∧
      0 < (exShoe0.shuffleDecks rnd0).cards.length) ∧
    (exShoe0.currentCard < SHOE_SIZE - RESHUFFLE_THRESHOLD →
      (exShoe0.drawCardFromShoe rnd0).card = exShoe0.cards.getD exShoe0.currentCard emptyCard ∧
      (exShoe0.drawCardFromShoe rnd0).shoe.currentCard = exShoe0.currentCard + 1 ∧
      exShoe0.currentCard < exShoe0.cards.length)) :=
  ⟨by decide, by simp [exShoe0],
   C7_draw_reshuffle_safe exShoe0 rnd0 (by decide) (by simp [exShoe0])⟩

/-- A card added to the full (10-card) dealer hand is silently dropped. -/
theorem hand10_add_fixpoint (c : Card) : hand10.addCardToHand c = hand10 := by
  have hnc : hand10.numCards = 10 := by decide
  have hneg : ¬(hand10.numCards < Hand.MAX_HAND_SIZE - 1 ∧ c.rank ≠ "" ∧ c.suit ≠ "") := by
    intro hcon
    rw [hnc] at hcon
    exact absurd hcon.1 (by decide)
  unfold Hand.addCardToHand
  rw [if_neg hneg]

/-- Once the dealer hand is `hand10` (score 16, ten cards), the dealer-turn
loop never returns, whatever the shoe state and however much fuel it gets. -/
theorem dealerLoop_stuck_hand10 (fuel : Nat) :
    ∀ deck : Shoe, dealerLoop rnd0 fuel hand10 deck = none := by
  induction fuel with
  | zero => intro deck; rfl
  | succ n ih =>
    intro deck
    have hsc : hand10.evaluateHandScore < DEALER_STAND := by decide
    simp only [dealerLoop]
    rw [if_pos hsc, hand10_add_fixpoint]
    exact ih _

/-- C6 (code bug): from the reachable dealer-turn start state `dealerStart`
(dealer dealt 2♣ 2♦) with shoe `shoe0` (next cards 2♥ 2♠ 2♣ 2♦ A♠ A♥ A♦ A♣),
the dealer-turn loop `while (score < 17) draw` never terminates: after eight
draws the hand holds ten cards scoring 16, every further `addCardToHand` is a
silent no-op, and the score stays 16 < 17 forever.  The claim says the loop
terminates with score at least 17. -/
theorem C6_dealer_turn_diverges :
    ∀ fuel : Nat, dealerLoop rnd0 fuel dealerStart shoe0 = none := by
  intro fuel
  match fuel with
  | 0 => rfl
  | 1 => rfl
  | 2 => rfl
  | 3 => rfl
  | 4 => rfl
  | 5 => rfl
  | 6 => rfl
  | 7 => rfl
  | n + 8 =>
    have hstep : dealerLoop rnd0 (n + 8) dealerStart shoe0 = dealerLoop rnd0 n hand10 shoe8 :=
      rfl
    rw [hstep]
    exact dealerLoop_stuck_hand10 n shoe8

/-- Invariant of reachable hands: the card array keeps its 11 slots, at most
10 cards are ever recorded, and every slot from `numCards` on still holds the
default-initialized empty card. -/
theorem reachable_inv {h : Hand} (hr : Hand.Reachable h) :
    h.card.length = 11 ∧ h.numCards ≤ 10 ∧
    h.card.drop h.numCards = List.replicate (11 - h.numCards) emptyCard := by
  induction hr with
  | init ownerName =>
    refine ⟨by simp [Hand.init, Hand.MAX_HAND_SIZE], by simp [Hand.init], ?_⟩
    simp [Hand.init, Hand.MAX_HAND_SIZE]
  | add c hr ih =>
    rename_i h0
    obtain ⟨hlen, hnum, hdrop⟩ := ih
    unfold Hand.addCardToHand
    split
    case isTrue hcond =>
      have hmhs : Hand.MAX_HAND_SIZE = 11 := rfl
      have hlt : h0.numCards < 10 := by
        have := hcond.1
        omega
      refine ⟨by simpa using hlen, ?_, ?_⟩
      · show h0.numCards + 1 ≤ 10
        omega
      · show (h0.card.set h0.numCards c).drop (h0.numCards + 1) =
          List.replicate (11 - (h0.numCards + 1)) emptyCard
        rw [List.drop_set_of_lt c h0.card (Nat.lt_succ_self _), Nat.succ_eq_add_one,
            ← List.drop_drop, hdrop]
        have hrep : 11 - h0.numCards = (11 - (h0.numCards + 1)) + 1 := by omega
        rw [hrep, List.replicate_succ, List.drop_succ_cons, List.drop_zero]
    case isFalse hcond =>
      exact ⟨hlen, hnum, hdrop⟩

/-- Empty slots contribute nothing to the summed card values. -/
theorem sum_replicate_zero (k : Nat) : (List.replicate k (0 : Nat)).sum = 0 := by
  induction k with
  | zero => rfl
  | succ n ih => simp [List.replicate_succ, ih]

/-- On a reachable hand, scanning the whole 11-slot array gives the same
score as scanning only the first `numCards` slots. -/
theorem score_take {h : Hand} (hr : Hand.Reachable h) :
    h.evaluateHandScore = scoreOn (h.card.take h.numCards) := by
  obtain ⟨hlen, hnum, hdrop⟩ := reachable_inv hr
  unfold Hand.evaluateHandScore
  conv_lhs => rw [← List.take_append_drop h.numCards h.card, hdrop]
  unfold scoreOn
  rw [List.map_append, List.sum_append, List.filter_append]
  have hcv : cardValues emptyCard.rank = 0 := rfl
  rw [List.map_replicate, hcv, sum_replicate_zero,
      List.filter_replicate_of_neg (by decide)]
  simp

/-- C10: for every hand reachable from a fresh `Hand` by `addCardToHand`
calls, all array slots at index at least `numCards` still hold the empty
card, and `evaluateHandScore` — which scans the entire fixed-size array —
equals the same computation over just the first `numCards` cards. -/
theorem C10_slots_empty_beyond_numCards (h : Hand) (hr : Hand.Reachable h) :
    h.card.drop h.numCards = List.replicate (11 - h.numCards) emptyCard ∧
    h.evaluateHandScore = scoreOn (h.card.take h.numCards) :=
  ⟨(reachable_inv hr).2.2, score_take hr⟩

/-- C10 (witness): the invariant evaluated on the concrete two-card hand
`p1AK`. -/
theorem C10_slots_empty_beyond_numCards_witness :
    p1AK.card.drop p1AK.numCards = List.replicate (11 - p1AK.numCards) emptyCard ∧
    p1AK.evaluateHandScore = scoreOn (p1AK.card.take p1AK.numCards) :=
  C10_slots_empty_beyond_numCards p1AK
    (Hand.Reachable.add _ (Hand.Reachable.add _ (Hand.Reachable.init _)))

/-- Valid-rank reachability implies plain reachability. -/
theorem rv_to_reachable {h : Hand} (hr : Hand.ReachableValid h) : Hand.Reachable h := by
  induction hr with
  | init ownerName => exact Hand.Reachable.init ownerName
  | add c hv hr ih => exact Hand.Reachable.add c ih

/-- On a valid-rank reachable hand, every card actually in the hand (the
first `numCards` slots) has one of the 13 canonical ranks. -/
theorem rv_prefix_valid {h : Hand} (hr : Hand.ReachableValid h) :
    ∀ c ∈ h.card.take h.numCards, validRank c.rank := by
  induction hr with
  | init ownerName => simp [Hand.init]
  | add c hv hr ih =>
    rename_i h0
    obtain ⟨hlen, hnum, -⟩ := reachable_inv (rv_to_reachable hr)
    unfold Hand.addCardToHand
    split
    case isTrue hcond =>
      have hlt : h0.numCards < h0.card.length := by
        have := hcond.1
        have hmhs : Hand.MAX_HAND_SIZE = 11 := rfl
        omega
      show ∀ x ∈ (h0.card.set h0.numCards c).take (h0.numCards + 1), validRank x.rank
      rw [take_succ_set h0.card h0.numCards c hlt]
      intro x hx
      rcases List.mem_append.mp hx with hx1 | hx2
      · exact ih x hx1
      · rw [List.mem_singleton.mp hx2]
        exact hv
    case isFalse hcond =>
      exact ih

/-- The source value table agrees with the spec value table on every
canonical rank. -/
theorem cardValues_eq_spec {r : String} (hv : validRank r) :
    cardValues r = specRankValue r := by
  unfold validRank at hv
  rcases hv with rfl | rfl | rfl | rfl | rfl | rfl | rfl | rfl | rfl | rfl | rfl | rfl | rfl <;>
    rfl

/-- The spec's ace-adjustment loop is the source's `adjustScoreForAces`. -/
theorem specAdjust_eq (total aces : Nat) :
    specAdjust total aces = adjustScoreForAces total aces := by
  induction aces generalizing total with
  | zero => rfl
  | succ n ih =>
    simp only [specAdjust, adjustScoreForAces, BLACKJACK, ACE_HIGH, ACE_LOW]
    split <;> simp [ih]

/-- C5: for every reachable hand (cards drawn with canonical ranks),
`evaluateHandScore` equals the spec's reference computation over the cards in
the hand: per-rank values with each Ace initially 11, then repeatedly
subtract 10 per high Ace while the total exceeds 21. -/
theorem C5_score_matches_spec (h : Hand) (hr : Hand.ReachableValid h) :
    h.evaluateHandScore = specScore (h.card.take h.numCards) := by
  rw [score_take (rv_to_reachable hr)]
  have hvld := rv_prefix_valid hr
  have hmap : (h.card.take h.numCards).map (fun c => cardValues c.rank) =
      (h.card.take h.numCards).map (fun c => specRankValue c.rank) := by
    apply List.map_congr_left
    intro c hc
    exact cardValues_eq_spec (hvld c hc)
  unfold scoreOn specScore
  rw [specAdjust_eq, hmap]

/-- C5 (witness): the score refinement evaluated on the concrete hand A♠ A♥,
which scores 12 (one ace high, one low) as the claim's example requires. -/
theorem C5_score_matches_spec_witness :
    hAA.evaluateHandScore = specScore (hAA.card.take hAA.numCards) ∧
    hAA.evaluateHandScore = 12 :=
  ⟨C5_score_matches_spec hAA
    (Hand.ReachableValid.add _ (Or.inl rfl)
      (Hand.ReachableValid.add _ (Or.inl rfl) (Hand.ReachableValid.init _))),
   by decide⟩
